import Mathlib

/-!
Verification development for the orderbookv7 repository: a shallow embedding
of the matching predicates (db.js / public.read.server.js), the execution
orchestrator prefix (executor.multi.js), the wallet pool (walletPool.js),
the reconciliation engine (sync.js), the fixed-point converter, the proof
cache (proofClient.js) and the write routes (write.routes.js), together
with theorems settling the specification claims.
-/

namespace OrderbookV7

/-- Row of the `trades` table as created by db.js. SQLite INTEGER columns that
may be NULL are `Option Int`; NOT NULL columns with DEFAULT 0 are `Int`;
TEXT decimal-string columns are `Option String`. `isLong` and `isLimit` are
stored as 0/1 (enforced by toBoolInt in the write routes), hence `Bool`. -/
structure Trade where
  id : Int
  trader : String
  assetId : Int
  isLong : Bool
  isLimit : Bool
  leverage : Option Int
  openPrice : Option Int
  state : Int
  openTimestamp : Option Int
  fundingIndex : Option String
  closePrice : Option Int
  lotSize : Option Int
  closedLotSize : Int
  stopLoss : Int
  takeProfit : Int
  lpLockedCapital : Option String
  marginUsdc : Option String
deriving Repr, DecidableEq

/-- SQL comparison `m <= col` against a nullable column: NULL never matches. -/
def leNull (m : Int) (col : Option Int) : Bool :=
  match col with
  | none => false
  | some v => decide (m ≤ v)

/-- SQL comparison `m >= col` against a nullable column: NULL never matches. -/
def geNull (m : Int) (col : Option Int) : Bool :=
  match col with
  | none => false
  | some v => decide (v ≤ m)

/-- Trigger disjunction of stmt.matchEntry (db.js): limit entries fire at
market at or below openPrice for longs (at or above for shorts); stop entries
the other way around. -/
def entryCond (m : Int) (t : Trade) : Bool :=
  (t.isLimit && ((t.isLong && leNull m t.openPrice) || (!t.isLong && geNull m t.openPrice)))
  || (!t.isLimit && ((t.isLong && geNull m t.openPrice) || (!t.isLong && leNull m t.openPrice)))

/-- WHERE clause of stmt.matchEntry: assetId filter, state = 0, and the
entry trigger disjunction. -/
def matchEntryRows (table : List Trade) (assetId : Int) (m : Int) : List Trade :=
  table.filter (fun t => t.assetId == assetId && t.state == 0 && entryCond m t)

/-- Response shape of GET /match/entry in public.read.server.js. -/
structure EntryMatchResult where
  limit : List Int
  stop : List Int
deriving Repr, DecidableEq

/-- GET /match/entry: run stmt.matchEntry and split the returned rows by the
CASE kind (limit when isLimit = 1, stop otherwise). -/
def matchEntryResult (table : List Trade) (assetId : Int) (m : Int) : EntryMatchResult :=
  let rows := matchEntryRows table assetId m
  { limit := ((rows.filter (fun t => t.isLimit)).map Trade.id)
    stop := ((rows.filter (fun t => !t.isLimit)).map Trade.id) }

/-- Stop-loss branch of stmt.matchExits: stopLoss of 0 is disabled; longs fire
at market at or below stopLoss, shorts at or above. -/
def slCond (m : Int) (t : Trade) : Bool :=
  t.stopLoss != 0 &&
    ((t.isLong && decide (m ≤ t.stopLoss)) || (!t.isLong && decide (t.stopLoss ≤ m)))

/-- Take-profit branch of stmt.matchExits: takeProfit of 0 is disabled; longs
fire at market at or above takeProfit, shorts at or below. -/
def tpCond (m : Int) (t : Trade) : Bool :=
  t.takeProfit != 0 &&
    ((t.isLong && decide (t.takeProfit ≤ m)) || (!t.isLong && decide (m ≤ t.takeProfit)))

/-- WHERE clause of stmt.matchExits: assetId filter, state = 1, and either
trigger firing. -/
def matchExitsRows (table : List Trade) (assetId : Int) (m : Int) : List Trade :=
  table.filter (fun t => t.assetId == assetId && t.state == 1 && (slCond m t || tpCond m t))

/-- Response shape of GET /match/exits in public.read.server.js. -/
structure ExitMatchResult where
  stopLoss : List Int
  takeProfit : List Int
deriving Repr, DecidableEq

/-- GET /match/exits: run stmt.matchExits and split rows by the CASE kind,
whose WHEN order gives stop-loss priority over take-profit. -/
def matchExitsResult (table : List Trade) (assetId : Int) (m : Int) : ExitMatchResult :=
  let rows := matchExitsRows table assetId m
  { stopLoss := ((rows.filter (fun t => slCond m t)).map Trade.id)
    takeProfit := ((rows.filter (fun t => !slCond m t && tpCond m t)).map Trade.id) }

/-- Membership of a row id in the id projection of a filtered table, for
tables whose ids are distinct (id is the PRIMARY KEY). -/
theorem mem_map_id_filter (table : List Trade) (p : Trade → Bool) (t : Trade)
    (hN : (table.map Trade.id).Nodup) (ht : t ∈ table) :
    t.id ∈ (table.filter p).map Trade.id ↔ p t = true := by
  constructor
  · intro h
    obtain ⟨u, hu, hid⟩ := List.mem_map.mp h
    have hmem := List.mem_filter.mp hu
    have : u = t := List.inj_on_of_nodup_map hN hmem.1 ht hid
    exact this ▸ hmem.2
  · intro hp
    exact List.mem_map.mpr ⟨t, List.mem_filter.mpr ⟨ht, hp⟩, rfl⟩

/-- Spec-side transcription of the entry-matching trigger table of the
specification, to be compared with the SQL predicate `entryCond`. -/
def specEntryTrigger (m op : Int) (isLimitFlag isLongFlag : Bool) : Prop :=
  (isLimitFlag = true ∧ isLongFlag = true ∧ m ≤ op) ∨
  (isLimitFlag = true ∧ isLongFlag = false ∧ op ≤ m) ∨
  (isLimitFlag = false ∧ isLongFlag = true ∧ op ≤ m) ∨
  (isLimitFlag = false ∧ isLongFlag = false ∧ m ≤ op)

instance (m op : Int) (il lg : Bool) : Decidable (specEntryTrigger m op il lg) := by
  unfold specEntryTrigger; infer_instance

/-- C1: for every trade row and every query (assetId, market in E6), the
entry-match result contains the trade id exactly when the row has state 0,
the queried assetId, and the spec trigger table fires (equality included in
all four cases); matched ids are classified under limit when isLimit is true
and under stop otherwise. -/
theorem C1_entry_match (table : List Trade) (t : Trade) (a m op : Int)
    (hN : (table.map Trade.id).Nodup) (ht : t ∈ table) (hop : t.openPrice = some op) :
    (t.id ∈ (matchEntryResult table a m).limit ∨ t.id ∈ (matchEntryResult table a m).stop
      ↔ t.state = 0 ∧ t.assetId = a ∧ specEntryTrigger m op t.isLimit t.isLong)
    ∧ (t.id ∈ (matchEntryResult table a m).limit
      ↔ t.state = 0 ∧ t.assetId = a ∧ specEntryTrigger m op t.isLimit t.isLong
          ∧ t.isLimit = true)
    ∧ (t.id ∈ (matchEntryResult table a m).stop
      ↔ t.state = 0 ∧ t.assetId = a ∧ specEntryTrigger m op t.isLimit t.isLong
          ∧ t.isLimit = false) := by
  have elim : (matchEntryResult table a m).limit
      = (table.filter fun u =>
          u.isLimit && (u.assetId == a && u.state == 0 && entryCond m u)).map Trade.id := by
    simp only [matchEntryResult, matchEntryRows, List.filter_filter]
  have estp : (matchEntryResult table a m).stop
      = (table.filter fun u =>
          !u.isLimit && (u.assetId == a && u.state == 0 && entryCond m u)).map Trade.id := by
    simp only [matchEntryResult, matchEntryRows, List.filter_filter]
  rw [elim, estp,
    mem_map_id_filter table
      (fun u => u.isLimit && (u.assetId == a && u.state == 0 && entryCond m u)) t hN ht,
    mem_map_id_filter table
      (fun u => !u.isLimit && (u.assetId == a && u.state == 0 && entryCond m u)) t hN ht]
  cases hL : t.isLimit <;> cases hG : t.isLong <;>
    simp [entryCond, leNull, geNull, hop, hL, hG, specEntryTrigger] <;>
    omega

/-- Example order row used by the C1 witness: a long limit order at
openPrice 70_000_000000 E6. -/
def sampleLimitOrder : Trade where
  id := 1
  trader := "0xabcdef0123"
  assetId := 0
  isLong := true
  isLimit := true
  leverage := none
  openPrice := some 70000000000
  state := 0
  openTimestamp := none
  fundingIndex := none
  closePrice := some 0
  lotSize := some 1
  closedLotSize := 0
  stopLoss := 0
  takeProfit := 0
  lpLockedCapital := none
  marginUsdc := none

/-- Witness for C1: the sample long limit order is matched (under limit) at
market equal to openPrice and unmatched at one tick above. -/
theorem C1_entry_match_witness :
    ((1 : Int) ∈ (matchEntryResult [sampleLimitOrder] 0 70000000000).limit)
    ∧ ¬ ((1 : Int) ∈ (matchEntryResult [sampleLimitOrder] 0 70000000001).limit
      ∨ (1 : Int) ∈ (matchEntryResult [sampleLimitOrder] 0 70000000001).stop) := by
  refine ⟨?_, ?_⟩
  · exact (C1_entry_match [sampleLimitOrder] sampleLimitOrder 0 70000000000 70000000000
        (by decide) (by decide) rfl).2.1.mpr
      ⟨rfl, rfl, Or.inl ⟨rfl, rfl, by decide⟩, rfl⟩
  · intro h
    have := (C1_entry_match [sampleLimitOrder] sampleLimitOrder 0 70000000001 70000000000
        (by decide) (by decide) rfl).1.mp h
    exact absurd this.2.2 (by decide)

/-- Spec-side stop-loss trigger of the exit-matching table: disabled at 0,
longs fire at market at or below the stop, shorts at or above. -/
def specStopLossFires (m : Int) (isLongFlag : Bool) (sl : Int) : Prop :=
  sl ≠ 0 ∧ ((isLongFlag = true ∧ m ≤ sl) ∨ (isLongFlag = false ∧ sl ≤ m))

/-- Spec-side take-profit trigger of the exit-matching table: disabled at 0,
longs fire at market at or above the target, shorts at or below. -/
def specTakeProfitFires (m : Int) (isLongFlag : Bool) (tp : Int) : Prop :=
  tp ≠ 0 ∧ ((isLongFlag = true ∧ tp ≤ m) ∨ (isLongFlag = false ∧ m ≤ tp))

instance (m : Int) (lg : Bool) (sl : Int) : Decidable (specStopLossFires m lg sl) := by
  unfold specStopLossFires; infer_instance

instance (m : Int) (lg : Bool) (tp : Int) : Decidable (specTakeProfitFires m lg tp) := by
  unfold specTakeProfitFires; infer_instance

/-- C2: for every open trade row with the queried assetId, the exit-match
result contains its id exactly when a non-disabled trigger fires; the id is
classified under stopLoss whenever the stop-loss trigger fires (priority over
take-profit), and a row with takeProfit 0 is never in the takeProfit set. -/
theorem C2_exit_match (table : List Trade) (t : Trade) (a m : Int)
    (hN : (table.map Trade.id).Nodup) (ht : t ∈ table)
    (hstate : t.state = 1) (hasset : t.assetId = a) :
    (t.id ∈ (matchExitsResult table a m).stopLoss ∨
        t.id ∈ (matchExitsResult table a m).takeProfit
      ↔ specStopLossFires m t.isLong t.stopLoss ∨ specTakeProfitFires m t.isLong t.takeProfit)
    ∧ (t.id ∈ (matchExitsResult table a m).stopLoss ↔ specStopLossFires m t.isLong t.stopLoss)
    ∧ (t.id ∈ (matchExitsResult table a m).takeProfit
      ↔ specTakeProfitFires m t.isLong t.takeProfit ∧ ¬ specStopLossFires m t.isLong t.stopLoss)
    ∧ (t.takeProfit = 0 → t.id ∉ (matchExitsResult table a m).takeProfit) := by
  have esl : (matchExitsResult table a m).stopLoss
      = (table.filter fun u =>
          slCond m u && (u.assetId == a && u.state == 1 && (slCond m u || tpCond m u))).map
            Trade.id := by
    simp only [matchExitsResult, matchExitsRows, List.filter_filter]
  have etp : (matchExitsResult table a m).takeProfit
      = (table.filter fun u =>
          (!slCond m u && tpCond m u)
            && (u.assetId == a && u.state == 1 && (slCond m u || tpCond m u))).map Trade.id := by
    simp only [matchExitsResult, matchExitsRows, List.filter_filter]
  rw [esl, etp,
    mem_map_id_filter table
      (fun u => slCond m u && (u.assetId == a && u.state == 1 && (slCond m u || tpCond m u)))
      t hN ht,
    mem_map_id_filter table
      (fun u => (!slCond m u && tpCond m u)
        && (u.assetId == a && u.state == 1 && (slCond m u || tpCond m u))) t hN ht]
  cases hG : t.isLong <;>
    simp [slCond, tpCond, hstate, hasset, hG, specStopLossFires, specTakeProfitFires] <;>
    omega

/-- Witness for C2: an open long trade with stopLoss 65_000_000000 and a
disabled takeProfit is in the stopLoss set at market equal to the stop and
never in the takeProfit set. -/
def sampleOpenLong : Trade where
  id := 2
  trader := "0xabcdef0123"
  assetId := 0
  isLong := true
  isLimit := false
  leverage := none
  openPrice := some 70000000000
  state := 1
  openTimestamp := none
  fundingIndex := none
  closePrice := some 0
  lotSize := some 1
  closedLotSize := 0
  stopLoss := 65000000000
  takeProfit := 0
  lpLockedCapital := none
  marginUsdc := none

theorem C2_exit_match_witness :
    ((2 : Int) ∈ (matchExitsResult [sampleOpenLong] 0 65000000000).stopLoss)
    ∧ ((2 : Int) ∉ (matchExitsResult [sampleOpenLong] 0 99000000000).takeProfit) := by
  refine ⟨?_, ?_⟩
  · exact (C2_exit_match [sampleOpenLong] sampleOpenLong 0 65000000000
        (by decide) (by decide) rfl rfl).2.1.mpr ⟨by decide, Or.inl ⟨rfl, by decide⟩⟩
  · exact (C2_exit_match [sampleOpenLong] sampleOpenLong 0 99000000000
        (by decide) (by decide) rfl rfl).2.2.2 rfl

/-- Execution kind used by executor.multi.js when dispatching matched ids:
entry candidates call executeOrder, exit candidates executeStopOrTakeProfit. -/
inductive ExecKind where
  | entry
  | exitPos
deriving Repr, DecidableEq

/-- The recentlySent map of executor.multi.js: (kind, tradeId) keys mapped to
the timestamp of the last attempt that passed the dedup check. Modelled as an
association list where the most recent binding shadows older ones. -/
def DedupMap : Type := List ((ExecKind × Int) × Nat)

instance : DecidableEq DedupMap := by
  unfold DedupMap; infer_instance

/-- recentlySent.get(key), absent keys reading as 0 via the JS fallback. -/
def dedupLast (m : DedupMap) (key : ExecKind × Int) : Nat :=
  match m.find? (fun e => e.1 == key) with
  | some e => e.2
  | none => 0

/-- recentlySent.set(key, now). -/
def dedupSet (m : DedupMap) (key : ExecKind × Int) (now : Nat) : DedupMap :=
  (key, now) :: m

/-- Outcome of the synchronous prefix of executeOnchain, up to the point
where a wallet would be acquired: dedup skip, the two entry admission skips,
or proceeding to the wallet/proof/ledger pipeline. -/
inductive ExecOutcome where
  | skippedDedup
  | skippedZeroLocked
  | skippedNoLiquidity
  | proceed
deriving Repr, DecidableEq

/-- The wallet acquisition, proof fetch and ledger submission of
executeOnchain all happen strictly after the modelled prefix, so they occur
exactly when the prefix proceeds. -/
def performsDownstream : ExecOutcome → Bool
  | .proceed => true
  | _ => false

/-- Whether the modelled prefix of executeOnchain enqueues the trade id into
the resync batcher: only the zero-locked-capital skip does (the proceed
branch may enqueue later on execution failure, outside the prefix). -/
def enqueuesResyncAtSkip : ExecOutcome → Bool
  | .skippedZeroLocked => true
  | _ => false

/-- Prefix of executeOnchain (executor.multi.js): dedup check on
(kind, tradeId) against the recentlySent map, timestamp recording, then for
entries the zero-locked-capital check (getTradeLockedE6) and the
lpFreeCapital admission check. `locked` and `free` are the BigInt values the
two reads would return. -/
def executeOnchain (dedupMs : Nat) (m : DedupMap) (kind : ExecKind) (tradeId : Int)
    (now : Nat) (locked : Int) (free : Int) : ExecOutcome × DedupMap :=
  let key := (kind, tradeId)
  let last := dedupLast m key
  if now - last < dedupMs then (.skippedDedup, m)
  else
    let m2 := dedupSet m key now
    match kind with
    | .entry =>
      if locked ≤ 0 then (.skippedZeroLocked, m2)
      else if free < locked then (.skippedNoLiquidity, m2)
      else (.proceed, m2)
    | .exitPos => (.proceed, m2)

/-- A call that does not skip on dedup always records its start time in the
recentlySent map, whatever its outcome. -/
theorem executeOnchain_map_of_not_dedup (dedupMs : Nat) (m : DedupMap) (kind : ExecKind)
    (tradeId : Int) (now : Nat) (locked free : Int)
    (h : (executeOnchain dedupMs m kind tradeId now locked free).1 ≠ .skippedDedup) :
    (executeOnchain dedupMs m kind tradeId now locked free).2
      = dedupSet m (kind, tradeId) now := by
  unfold executeOnchain at *
  by_cases hd : now - dedupLast m (kind, tradeId) < dedupMs
  · simp [hd] at h
  · cases kind <;> simp [hd] <;> split <;> (try rfl) <;> (split <;> rfl)

/-- Reading a key from a map right after setting it yields the set value. -/
theorem dedupLast_set (m : DedupMap) (key : ExecKind × Int) (now : Nat) :
    dedupLast (dedupSet m key now) key = now := by
  simp [dedupLast, dedupSet, List.find?]

/-- A call whose start time is within the dedup window of the recorded
timestamp for its key skips immediately, leaving the map untouched. -/
theorem executeOnchain_skip (dedupMs : Nat) (m : DedupMap) (kind : ExecKind) (tradeId : Int)
    (now : Nat) (locked free : Int)
    (h : now - dedupLast m (kind, tradeId) < dedupMs) :
    executeOnchain dedupMs m kind tradeId now locked free = (.skippedDedup, m) := by
  unfold executeOnchain
  simp [h]

/-- C3 counterexample: three exit calls for trade 7 at times 20000, 34000 and
36000 with a 15000 ms window. The second and third calls start 2000 ms apart
(the same (kind, tradeId)), yet the third call proceeds to the downstream
pipeline, because the dedup-skipped second call did not refresh the
recorded timestamp. -/
theorem C3_dedup_counterexample :
    (36000 - 34000 < 15000)
    ∧ ((executeOnchain 15000
          (executeOnchain 15000 [] .exitPos 7 20000 0 0).2 .exitPos 7 34000 0 0).1
        = .skippedDedup)
    ∧ ((executeOnchain 15000
          (executeOnchain 15000
            (executeOnchain 15000 [] .exitPos 7 20000 0 0).2 .exitPos 7 34000 0 0).2
          .exitPos 7 36000 0 0).1 = .proceed)
    ∧ performsDownstream .proceed = true := by
  refine ⟨by decide, ?_, ?_, rfl⟩ <;> decide

/-- A second call for the same key within the dedup window of a first call
that passed the dedup check evaluates to a dedup skip with the map of the
first call. Shared backbone of the dedup-window claims. -/
theorem dedup_window_skip (dedupMs : Nat) (m : DedupMap) (kind : ExecKind) (tradeId : Int)
    (t0 t1 : Nat) (locked0 free0 locked1 free1 : Int)
    (h1 : (executeOnchain dedupMs m kind tradeId t0 locked0 free0).1 ≠ .skippedDedup)
    (hwin : t1 - t0 < dedupMs) :
    executeOnchain dedupMs (executeOnchain dedupMs m kind tradeId t0 locked0 free0).2
        kind tradeId t1 locked1 free1
      = (.skippedDedup, (executeOnchain dedupMs m kind tradeId t0 locked0 free0).2) := by
  have hm := executeOnchain_map_of_not_dedup dedupMs m kind tradeId t0 locked0 free0 h1
  have hlast : dedupLast (executeOnchain dedupMs m kind tradeId t0 locked0 free0).2
      (kind, tradeId) = t0 := by
    rw [hm]; exact dedupLast_set m (kind, tradeId) t0
  exact executeOnchain_skip dedupMs
    (executeOnchain dedupMs m kind tradeId t0 locked0 free0).2 kind tradeId t1 locked1 free1
    (by rw [hlast]; exact hwin)

/-- C3 (amended): for every pair of executeOnchain calls with the same
(kind, tradeId) whose start times are less than the dedup window apart, if
the first call itself passes the dedup check (thereby recording its start
time), then the second call skips on dedup, leaves the map unchanged, and
performs no downstream action (no wallet acquisition, proof fetch or ledger
call); only the first of the two may reach the downstream pipeline. -/
theorem C3_dedup_window (dedupMs : Nat) (m : DedupMap) (kind : ExecKind) (tradeId : Int)
    (t0 t1 : Nat) (locked0 free0 locked1 free1 : Int)
    (h1 : (executeOnchain dedupMs m kind tradeId t0 locked0 free0).1 ≠ .skippedDedup)
    (hle : t0 ≤ t1) (hwin : t1 - t0 < dedupMs) :
    ((executeOnchain dedupMs
        (executeOnchain dedupMs m kind tradeId t0 locked0 free0).2
        kind tradeId t1 locked1 free1).1 = .skippedDedup)
    ∧ ((executeOnchain dedupMs
        (executeOnchain dedupMs m kind tradeId t0 locked0 free0).2
        kind tradeId t1 locked1 free1).2
        = (executeOnchain dedupMs m kind tradeId t0 locked0 free0).2)
    ∧ performsDownstream .skippedDedup = false := by
  have hskip := dedup_window_skip dedupMs m kind tradeId t0 t1 locked0 free0 locked1 free1
    h1 hwin
  exact ⟨by rw [hskip], by rw [hskip], rfl⟩

/-- Witness for C3: with an empty map, an exit call for trade 9 at time
20000 passes dedup, so a second call at time 30000 (within the 15000 ms
window) skips with no downstream action and no map change. -/
theorem C3_dedup_window_witness :
    ((executeOnchain 15000 (executeOnchain 15000 [] .exitPos 9 20000 0 0).2
        .exitPos 9 30000 0 0).1 = .skippedDedup)
    ∧ ((executeOnchain 15000 (executeOnchain 15000 [] .exitPos 9 20000 0 0).2
        .exitPos 9 30000 0 0).2 = (executeOnchain 15000 [] .exitPos 9 20000 0 0).2)
    ∧ performsDownstream .skippedDedup = false :=
  C3_dedup_window 15000 [] .exitPos 9 20000 30000 0 0 0 0
    (by decide) (by decide) (by decide)

/-- C4: an entry attempt that passes the dedup check stops before the
wallet/proof/ledger pipeline when the locked capital read from the index is
zero (enqueueing the id for resync) and when the pool free capital is
strictly below the locked amount (without enqueueing). -/
theorem C4_admission_control (dedupMs : Nat) (m : DedupMap) (tradeId : Int) (now : Nat)
    (locked free : Int)
    (hd : dedupMs ≤ now - dedupLast m (.entry, tradeId)) :
    ((locked = 0 →
      (executeOnchain dedupMs m .entry tradeId now locked free).1 = .skippedZeroLocked
      ∧ enqueuesResyncAtSkip (executeOnchain dedupMs m .entry tradeId now locked free).1 = true
      ∧ performsDownstream (executeOnchain dedupMs m .entry tradeId now locked free).1 = false)
    ∧ (0 < locked → free < locked →
      (executeOnchain dedupMs m .entry tradeId now locked free).1 = .skippedNoLiquidity
      ∧ enqueuesResyncAtSkip (executeOnchain dedupMs m .entry tradeId now locked free).1 = false
      ∧ performsDownstream (executeOnchain dedupMs m .entry tradeId now locked free).1
          = false)) := by
  have hnd : ¬ (now - dedupLast m (.entry, tradeId) < dedupMs) := not_lt.mpr hd
  constructor
  · intro h0
    have : (executeOnchain dedupMs m .entry tradeId now locked free).1
        = .skippedZeroLocked := by
      unfold executeOnchain
      simp [hnd, h0]
    exact ⟨this, by rw [this]; rfl, by rw [this]; rfl⟩
  · intro hpos hfree
    have : (executeOnchain dedupMs m .entry tradeId now locked free).1
        = .skippedNoLiquidity := by
      unfold executeOnchain
      simp [hnd, hfree, not_le.mpr hpos]
    exact ⟨this, by rw [this]; rfl, by rw [this]; rfl⟩

/-- Witness for C4: with an empty map at time 20000, an entry attempt for
trade 5 with locked capital 0 skips into resync, and one with locked 3 but
free 2 skips silently. -/
theorem C4_admission_control_witness :
    ((executeOnchain 15000 [] .entry 5 20000 0 10).1 = .skippedZeroLocked
      ∧ enqueuesResyncAtSkip (executeOnchain 15000 [] .entry 5 20000 0 10).1 = true
      ∧ performsDownstream (executeOnchain 15000 [] .entry 5 20000 0 10).1 = false)
    ∧ ((executeOnchain 15000 [] .entry 5 20000 3 2).1 = .skippedNoLiquidity
      ∧ enqueuesResyncAtSkip (executeOnchain 15000 [] .entry 5 20000 3 2).1 = false
      ∧ performsDownstream (executeOnchain 15000 [] .entry 5 20000 3 2).1 = false) :=
  ⟨(C4_admission_control 15000 [] 5 20000 0 10 (by decide)).1 rfl,
   (C4_admission_control 15000 [] 5 20000 3 2 (by decide)).2 (by decide) (by decide)⟩

/-- C10: executeOnchain records the dedup timestamp before the admission
checks, so an entry attempt skipped for zero locked capital or for
insufficient free liquidity still consumes the dedup window: every further
call for the same (kind, tradeId) within the window skips on dedup with no
wallet acquisition, proof fetch or ledger call, even though the first
attempt never reached the downstream pipeline either. -/
theorem C10_dedup_recorded_before_admission (dedupMs : Nat) (m : DedupMap) (tradeId : Int)
    (t0 t1 : Nat) (locked0 free0 locked1 free1 : Int)
    (h1 : (executeOnchain dedupMs m .entry tradeId t0 locked0 free0).1 = .skippedZeroLocked
      ∨ (executeOnchain dedupMs m .entry tradeId t0 locked0 free0).1 = .skippedNoLiquidity)
    (hle : t0 ≤ t1) (hwin : t1 - t0 < dedupMs) :
    performsDownstream (executeOnchain dedupMs m .entry tradeId t0 locked0 free0).1 = false
    ∧ ((executeOnchain dedupMs
        (executeOnchain dedupMs m .entry tradeId t0 locked0 free0).2
        .entry tradeId t1 locked1 free1).1 = .skippedDedup)
    ∧ performsDownstream (executeOnchain dedupMs
        (executeOnchain dedupMs m .entry tradeId t0 locked0 free0).2
        .entry tradeId t1 locked1 free1).1 = false := by
  have hnd : (executeOnchain dedupMs m .entry tradeId t0 locked0 free0).1
      ≠ .skippedDedup := by
    rcases h1 with h | h <;> rw [h] <;> intro hc <;> exact ExecOutcome.noConfusion hc
  have hskip := dedup_window_skip dedupMs m .entry tradeId t0 t1 locked0 free0 locked1 free1
    hnd hwin
  refine ⟨?_, by rw [hskip], by rw [hskip]; rfl⟩
  rcases h1 with h | h <;> rw [h] <;> rfl

/-- Witness for C10: an entry attempt at time 20000 with zero locked capital
skips without submitting anything, yet a retry at time 30000 is still dedup
skipped. -/
theorem C10_dedup_recorded_before_admission_witness :
    performsDownstream (executeOnchain 15000 [] .entry 5 20000 0 10).1 = false
    ∧ ((executeOnchain 15000 (executeOnchain 15000 [] .entry 5 20000 0 10).2
        .entry 5 30000 7 7).1 = .skippedDedup)
    ∧ performsDownstream (executeOnchain 15000 (executeOnchain 15000 [] .entry 5 20000 0 10).2
        .entry 5 30000 7 7).1 = false :=
  C10_dedup_recorded_before_admission 15000 [] 5 20000 30000 0 10 7 7
    (Or.inl (by decide)) (by decide) (by decide)

/-- Projection of a local trades row read by buildDbReaders in sync.js
(SELECT id, state, stopLoss, takeProfit). -/
structure LocalRow where
  state : Int
  stopLoss : Int
  takeProfit : Int
deriving Repr, DecidableEq

/-- Result of a states-mode reconciliation run (syncStates in sync.js),
recorded as the id lists handed to each downstream write: ids escalated to
syncFull because they were missing locally, ids escalated to syncFull
because their ledger state differed, and ids patched directly through
batchPatchStates. -/
structure SyncStatesOutcome where
  fullFetchedMissing : List Int
  fullFetchedChanged : List Int
  statePatches : List Int
deriving Repr, DecidableEq

/-- syncStates in sync.js: ids above the authoritative maximum are dropped;
missing ids are escalated to syncFull; present ids whose fetched ledger
state differs from the stored state are collected into needFull and
escalated to syncFull; the patches list is never populated, so no direct
batchPatchStates write occurs. `dbRow` is the read-only DB reader and
`ledgerState` the per-id result of getTradeStatesFromList. -/
def syncStates (ids : List Int) (maxExistingId : Int)
    (dbRow : Int → Option LocalRow) (ledgerState : Int → Int) : SyncStatesOutcome :=
  let kept := ids.filter (fun id => decide (id ≤ maxExistingId))
  let missing := kept.filter (fun id => (dbRow id).isNone)
  let present := kept.filter (fun id => (dbRow id).isSome)
  let needFull := present.filter (fun id =>
    match dbRow id with
    | none => true
    | some row => ledgerState id != row.state)
  { fullFetchedMissing := missing
    fullFetchedChanged := needFull
    statePatches := [] }

/-- C5: in a states-mode run, an id absent locally but within the
authoritative bound is escalated to a full fetch-and-upsert; a present id
whose ledger state differs from the stored state is escalated to exactly one
full fetch-and-upsert; and no direct state-only patch is ever issued. -/
theorem C5_states_reconciliation (ids : List Int) (maxExistingId : Int)
    (dbRow : Int → Option LocalRow) (ledgerState : Int → Int)
    (hN : ids.Nodup) (id : Int) (hid : id ∈ ids) (hle : id ≤ maxExistingId) :
    ((dbRow id = none →
      id ∈ (syncStates ids maxExistingId dbRow ledgerState).fullFetchedMissing)
    ∧ (∀ row, dbRow id = some row → ledgerState id ≠ row.state →
      ((syncStates ids maxExistingId dbRow ledgerState).fullFetchedMissing
        ++ (syncStates ids maxExistingId dbRow ledgerState).fullFetchedChanged).count id = 1)
    ∧ (syncStates ids maxExistingId dbRow ledgerState).statePatches = []) := by
  refine ⟨?_, ?_, rfl⟩
  · intro habs
    unfold syncStates
    simp only [List.mem_filter]
    exact ⟨⟨hid, by simp [hle]⟩, by simp [habs]⟩
  · intro row hrow hne
    unfold syncStates
    simp only [List.count_append]
    have hkept : id ∈ ids.filter (fun id => decide (id ≤ maxExistingId)) :=
      List.mem_filter.mpr ⟨hid, by simp [hle]⟩
    have hNk : (ids.filter (fun id => decide (id ≤ maxExistingId))).Nodup :=
      hN.filter _
    have hNp : ((ids.filter (fun id => decide (id ≤ maxExistingId))).filter
        (fun id => (dbRow id).isSome)).Nodup := hNk.filter _
    have hmiss : id ∉ (ids.filter (fun id => decide (id ≤ maxExistingId))).filter
        (fun id => (dbRow id).isNone) := by
      intro hmem
      have := (List.mem_filter.mp hmem).2
      simp [hrow] at this
    have hpres : id ∈ (ids.filter (fun id => decide (id ≤ maxExistingId))).filter
        (fun id => (dbRow id).isSome) :=
      List.mem_filter.mpr ⟨hkept, by simp [hrow]⟩
    have hneed : id ∈ ((ids.filter (fun id => decide (id ≤ maxExistingId))).filter
        (fun id => (dbRow id).isSome)).filter (fun id =>
          match dbRow id with
          | none => true
          | some row => ledgerState id != row.state) := by
      refine List.mem_filter.mpr ⟨hpres, ?_⟩
      simp only [hrow]
      simpa using hne
    have hc1 : (((ids.filter (fun id => decide (id ≤ maxExistingId))).filter
        (fun id => (dbRow id).isSome)).filter (fun id =>
          match dbRow id with
          | none => true
          | some row => ledgerState id != row.state)).count id = 1 :=
      List.count_eq_one_of_mem (hNp.filter _) hneed
    have hc0 : (((ids.filter (fun id => decide (id ≤ maxExistingId))).filter
        (fun id => (dbRow id).isNone))).count id = 0 :=
      List.count_eq_zero.mpr hmiss
    simp only [hc0, hc1]

/-- Witness for C5: two local ids 1 (state 1 stored, ledger reports 2) and
3 (missing locally), bound 10: id 3 is fully refetched, id 1 is fully
refetched exactly once, and no state patch is issued. -/
theorem C5_states_reconciliation_witness :
    ((3 : Int) ∈ (syncStates [1, 3] 10
        (fun id => if id = 1 then some { state := 1, stopLoss := 0, takeProfit := 0 } else none)
        (fun _ => 2)).fullFetchedMissing)
    ∧ (((syncStates [1, 3] 10
        (fun id => if id = 1 then some { state := 1, stopLoss := 0, takeProfit := 0 } else none)
        (fun _ => 2)).fullFetchedMissing
      ++ (syncStates [1, 3] 10
        (fun id => if id = 1 then some { state := 1, stopLoss := 0, takeProfit := 0 } else none)
        (fun _ => 2)).fullFetchedChanged).count 1 = 1)
    ∧ (syncStates [1, 3] 10
        (fun id => if id = 1 then some { state := 1, stopLoss := 0, takeProfit := 0 } else none)
        (fun _ => 2)).statePatches = [] := by
  refine ⟨?_, ?_, ?_⟩
  · exact (C5_states_reconciliation [1, 3] 10
      (fun id => if id = 1 then some { state := 1, stopLoss := 0, takeProfit := 0 } else none)
      (fun _ => 2) (by decide) 3 (by decide) (by decide)).1 (by norm_num)
  · exact (C5_states_reconciliation [1, 3] 10
      (fun id => if id = 1 then some { state := 1, stopLoss := 0, takeProfit := 0 } else none)
      (fun _ => 2) (by decide) 1 (by decide) (by decide)).2.1
      { state := 1, stopLoss := 0, takeProfit := 0 } (by norm_num) (by decide)
  · exact (C5_states_reconciliation [1, 3] 10
      (fun id => if id = 1 then some { state := 1, stopLoss := 0, takeProfit := 0 } else none)
      (fun _ => 2) (by decide) 1 (by decide) (by decide)).2.2

/-- State of the WalletPool of executor/walletPool.js: the number of wallets,
the per-wallet delay, the rotating cursor, and the busy-until table (one
available-after timestamp per wallet index). -/
structure PoolState where
  n : Nat
  delay : Nat
  nextIndex : Nat
  busyUntil : Nat → Nat

/-- WalletPool constructor: throws when no private keys are configured,
otherwise starts with cursor 0 and an all-zero busy table. -/
def mkWalletPool (privateKeys : List String) (perWalletDelayMs : Nat) :
    Except String PoolState :=
  if privateKeys.length = 0 then .error ("No PRIVATE_KEYS provided")
  else .ok { n := privateKeys.length, delay := perWalletDelayMs, nextIndex := 0,
             busyUntil := fun _ => 0 }

/-- Round-robin scan of acquire(): the first index, starting from the
cursor, whose busy-until time has passed. -/
def scanFree (st : PoolState) (now : Nat) : Option Nat :=
  ((List.range st.n).map (fun tries => (st.nextIndex + tries) % st.n)).find?
    (fun i => decide (st.busyUntil i ≤ now))

/-- One pass of the acquire() loop at clock value `now`: on success returns
the wallet index, pushes its availability forward by the per-wallet delay
and advances the cursor past it; on failure (all busy) leaves the state
unchanged and the caller sleeps. -/
def acquireStep (st : PoolState) (now : Nat) : Option Nat × PoolState :=
  match scanFree st now with
  | some i =>
    (some i,
      { st with nextIndex := (i + 1) % st.n,
                busyUntil := fun j => if j = i then now + st.delay else st.busyUntil j })
  | none => (none, st)

/-- Earliest busy-until time over the pool (Math.min over the busy table). -/
def minBusy (st : PoolState) : Nat :=
  (((List.range st.n).map st.busyUntil).minimum?).getD 0

/-- Sleep duration computed by acquire() when every wallet is busy. -/
def allBusyWaitMs (st : PoolState) (now : Nat) : Nat :=
  max 10 (minBusy st - now)

/-- Outcomes of a sequence of acquire() passes at the given clock values. -/
def runPool (st : PoolState) (ts : List Nat) : List (Option Nat) :=
  match ts with
  | [] => []
  | t :: rest => (acquireStep st t).1 :: runPool (acquireStep st t).2 rest

/-- Pool state reached after a sequence of acquire() passes. -/
def stateAt (st : PoolState) (ts : List Nat) : PoolState :=
  ts.foldl (fun s t => (acquireStep s t).2) st

/-- A successful pass returns an index that was available and marks it busy
until now + delay. -/
theorem acquireStep_success (st : PoolState) (now : Nat) (i : Nat)
    (h : (acquireStep st now).1 = some i) :
    st.busyUntil i ≤ now ∧ (acquireStep st now).2.busyUntil i = now + st.delay := by
  unfold acquireStep at *
  cases hs : scanFree st now with
  | none => rw [hs] at h; simp at h
  | some j =>
    rw [hs] at h
    have hij : j = i := by simpa using h
    subst hij
    have hpred := List.find?_some hs
    exact ⟨by simpa using hpred, by simp⟩

/-- Busy-until entries never decrease across a pass. -/
theorem acquireStep_busy_mono (st : PoolState) (now : Nat) (j : Nat) :
    st.busyUntil j ≤ (acquireStep st now).2.busyUntil j := by
  unfold acquireStep
  cases hs : scanFree st now with
  | none => simp
  | some i =>
    simp only []
    by_cases hji : j = i
    · subst hji
      have hpred := List.find?_some hs
      simp only [decide_eq_true_eq] at hpred
      simp [hpred.trans (Nat.le_add_right now st.delay)]
    · simp [hji]

/-- A pass preserves the configured delay. -/
theorem acquireStep_delay (st : PoolState) (now : Nat) :
    (acquireStep st now).2.delay = st.delay := by
  unfold acquireStep
  cases hs : scanFree st now <;> simp

/-- stateAt distributes over list concatenation. -/
theorem stateAt_append (st : PoolState) (a b : List Nat) :
    stateAt st (a ++ b) = stateAt (stateAt st a) b := by
  unfold stateAt
  rw [List.foldl_append]

/-- Busy-until entries never decrease across a run. -/
theorem stateAt_busy_mono (st : PoolState) (ts : List Nat) (j : Nat) :
    st.busyUntil j ≤ (stateAt st ts).busyUntil j := by
  induction ts generalizing st with
  | nil => exact Nat.le_refl _
  | cons t rest ih =>
    exact (acquireStep_busy_mono st t j).trans (ih (acquireStep st t).2)

/-- A run preserves the configured delay. -/
theorem stateAt_delay (st : PoolState) (ts : List Nat) :
    (stateAt st ts).delay = st.delay := by
  induction ts generalizing st with
  | nil => rfl
  | cons t rest ih => rw [stateAt, List.foldl_cons, ← stateAt, ih, acquireStep_delay]

/-- The k-th outcome of a run is the outcome of a single pass from the state
after the first k passes, at the k-th clock value. -/
theorem runPool_get (st : PoolState) (ts : List Nat) (k : Nat) (t : Nat)
    (ht : ts.get? k = some t) :
    (runPool st ts).get? k = some (acquireStep (stateAt st (ts.take k)) t).1 := by
  induction ts generalizing st k with
  | nil => simp at ht
  | cons u rest ih =>
    cases k with
    | zero =>
      simp at ht
      subst ht
      rfl
    | succ k =>
      simp only [List.get?_cons_succ] at ht
      simpa [runPool, stateAt] using ih (acquireStep st u).2 k ht

/-- C6: (a) no wallet index is returned by two acquire() passes whose clock
values are less than the per-wallet delay apart — the later return is at
least delay after the earlier one; (b) when every wallet is busy the
computed sleep is at least 10 ms; (c) constructing the pool with an empty
signer list fails with an error. -/
theorem C6_wallet_pool :
    (∀ (st : PoolState) (ts : List Nat) (k m i tk tm : Nat),
      k < m → ts.get? k = some tk → ts.get? m = some tm →
      (runPool st ts).get? k = some (some i) → (runPool st ts).get? m = some (some i) →
      tk + st.delay ≤ tm)
    ∧ (∀ (st : PoolState) (now : Nat), scanFree st now = none → 10 ≤ allBusyWaitMs st now)
    ∧ (∀ perWalletDelayMs : Nat,
        mkWalletPool [] perWalletDelayMs = .error ("No PRIVATE_KEYS provided")) := by
  refine ⟨?_, ?_, ?_⟩
  · intro st ts k m i tk tm hkm hgk hgm hrk hrm
    have hk := runPool_get st ts k tk hgk
    have hm := runPool_get st ts m tm hgm
    rw [hk] at hrk
    rw [hm] at hrm
    have hrk2 : (acquireStep (stateAt st (ts.take k)) tk).1 = some i := by
      simpa using hrk
    have hrm2 : (acquireStep (stateAt st (ts.take m)) tm).1 = some i := by
      simpa using hrm
    have hafter := (acquireStep_success _ tk i hrk2).2
    have hbound := (acquireStep_success _ tm i hrm2).1
    have hdecomp : ts.take m = ts.take (k + 1) ++ (ts.take m).drop (k + 1) := by
      conv =>
        lhs
        rw [← List.take_append_drop (k + 1) (ts.take m)]
      rw [List.take_take, Nat.min_eq_left hkm]
    have hstep : stateAt st (ts.take (k + 1))
        = (acquireStep (stateAt st (ts.take k)) tk).2 := by
      have hgk2 : ts[k]? = some tk := by
        rw [← List.get?_eq_getElem?]
        exact hgk
      rw [List.take_succ, hgk2]
      simp [stateAt_append, stateAt]
    have hmono : (stateAt st (ts.take (k + 1))).busyUntil i
        ≤ (stateAt st (ts.take m)).busyUntil i := by
      rw [hdecomp, stateAt_append]
      exact stateAt_busy_mono _ _ i
    have hdel : (stateAt st (ts.take k)).delay = st.delay := stateAt_delay st _
    have : tk + st.delay ≤ (stateAt st (ts.take m)).busyUntil i := by
      calc tk + st.delay = (stateAt st (ts.take (k + 1))).busyUntil i := by
            rw [hstep, hafter, hdel]
        _ ≤ (stateAt st (ts.take m)).busyUntil i := hmono
    exact this.trans hbound
  · intro st now _
    exact Nat.le_max_left 10 _
  · intro d
    rfl

/-- Fresh one-wallet pool used by the C6 witness. -/
def samplePool : PoolState where
  n := 1
  delay := 1000
  nextIndex := 0
  busyUntil := fun _ => 0

/-- One-wallet pool whose only wallet is busy until 5000, used by the C6
witness. -/
def sampleBusyPool : PoolState where
  n := 1
  delay := 1000
  nextIndex := 0
  busyUntil := fun _ => 5000

/-- Witness for C6: a one-wallet pool with delay 1000 acquired at times 2000
and 3500 yields returns at least 1000 apart; a fully busy pool waits at
least 10 ms; the empty constructor errors. -/
theorem C6_wallet_pool_witness :
    (2000 + 1000 ≤ 3500)
    ∧ 10 ≤ allBusyWaitMs sampleBusyPool 100
    ∧ mkWalletPool [] 1000 = .error ("No PRIVATE_KEYS provided") := by
  refine ⟨?_, ?_, ?_⟩
  · exact C6_wallet_pool.1 samplePool [2000, 3500] 0 1 0 2000 3500 (by decide) rfl rfl
      (by rfl) (by rfl)
  · exact C6_wallet_pool.2.1 sampleBusyPool 100 (by rfl)
  · exact C6_wallet_pool.2.2 1000

/-- JS String.prototype.trim over the character list: whitespace removed
from both ends. -/
def trimChars (l : List Char) : List Char :=
  ((l.dropWhile Char.isWhitespace).reverse.dropWhile Char.isWhitespace).reverse

/-- Value of a decimal digit string read most significant first. -/
def digitsVal (l : List Char) : Nat :=
  l.foldl (fun acc c => acc * 10 + (c.toNat - 48)) 0

/-- Nonempty all-digit run, as required after the optional sign by the JS
BigInt string constructor. -/
def parseDigitsNat (l : List Char) : Option Nat :=
  if l.isEmpty then none
  else if l.all Char.isDigit then some (digitsVal l) else none

/-- Value of a hexadecimal digit, none for any other character. -/
def hexVal (c : Char) : Option Nat :=
  if c.isDigit then some (c.toNat - 48)
  else if ('a') ≤ c ∧ c ≤ ('f') then some (c.toNat - 87)
  else if ('A') ≤ c ∧ c ≤ ('F') then some (c.toNat - 55)
  else none

/-- Value of an octal digit, none for any other character. -/
def octVal (c : Char) : Option Nat :=
  if ('0') ≤ c ∧ c ≤ ('7') then some (c.toNat - 48) else none

/-- Value of a binary digit, none for any other character. -/
def binVal (c : Char) : Option Nat :=
  if c = '0' then some 0 else if c = '1' then some 1 else none

/-- Nonempty digit run in a given radix: none on an empty run or on any
character outside the radix. -/
def parseRadixNat (dv : Char → Option Nat) (radix : Nat) (l : List Char) : Option Nat :=
  if l.isEmpty then none
  else
    l.foldl (fun acc c =>
      match acc, dv c with
      | some a, some v => some (a * radix + v)
      | _, _ => none) (some 0)

/-- Model of the JS BigInt(string) constructor: surrounding whitespace is
ignored, the empty string is 0, an optional single sign precedes a nonempty
run of decimal digits, the prefixes 0x, 0o and 0b (either letter case, no
sign allowed) introduce nonempty hexadecimal, octal and binary digit runs,
and anything else throws (none). -/
def parseBigInt (l : List Char) : Option Int :=
  match trimChars l with
  | [] => some 0
  | c :: rest =>
    if c == '-' then (parseDigitsNat rest).map (fun v => -(v : Int))
    else if c == '+' then (parseDigitsNat rest).map (fun v => (v : Int))
    else if c == '0' then
      match rest with
      | c2 :: rest2 =>
        if c2 == 'x' || c2 == 'X' then
          (parseRadixNat hexVal 16 rest2).map (fun v => (v : Int))
        else if c2 == 'o' || c2 == 'O' then
          (parseRadixNat octVal 8 rest2).map (fun v => (v : Int))
        else if c2 == 'b' || c2 == 'B' then
          (parseRadixNat binVal 2 rest2).map (fun v => (v : Int))
        else (parseDigitsNat (c :: rest)).map (fun v => (v : Int))
      | [] => (parseDigitsNat (c :: rest)).map (fun v => (v : Int))
    else (parseDigitsNat (c :: rest)).map (fun v => (v : Int))

/-- JS replace of the leading-zero run in decimalToE6: leading zeros are
removed while the following character is still a digit (the regex keeps at
least one character). -/
def stripLeadingZeros (l : List Char) : List Char :=
  match l with
  | c :: c2 :: rest =>
    if c == '0' && c2.isDigit then stripLeadingZeros (c2 :: rest) else l
  | _ => l

/-- JS String.prototype.split with separator a dot, over character lists. -/
def splitOnDot (l : List Char) : List (List Char) :=
  match l with
  | [] => [[]]
  | c :: rest =>
    let r := splitOnDot rest
    if c == '.' then [] :: r
    else (c :: r.headD []) :: r.tail

/-- Final stage of decimalToE6 (executor.multi.js): padding of the
fractional field to 7 digits, round-half-up of the 7th digit into the
6-digit fraction, combination with the integer field, sign applied last.
The two BigInt conversions fail (none) exactly where JS throws. -/
def decimalToE6Fields (neg : Bool) (intPart fracRaw : List Char) : Option Int :=
  let fracPadded := (fracRaw ++ List.replicate 7 ('0')).take 7
  let frac6 := fracPadded.take 6
  let bump : Int :=
    match fracPadded.get? 6 with
    | some c => if c.isDigit && decide (5 ≤ c.toNat - 48) then 1 else 0
    | none => 0
  match parseBigInt (if intPart.isEmpty then ['0'] else intPart),
      parseBigInt (if frac6.isEmpty then ['0'] else frac6) with
  | some ip, some fp =>
    let bi := ip * 1000000 + fp + bump
    some (if neg then -bi else bi)
  | _, _ => none

/-- Middle stage of decimalToE6: split on the decimal point, take the first
segment as the integer field (with the leading-zero run stripped, empty
replaced by a single zero) and the second segment, if any, as the raw
fractional field. Segments beyond the second are dropped, as the JS
indexing parts[0] and parts[1] drops them. -/
def decimalToE6Parts (neg : Bool) (t : List Char) : Option Int :=
  let parts := splitOnDot t
  let p0 := parts.headD []
  let intPart := if p0.isEmpty then ['0'] else stripLeadingZeros p0
  let fracRaw := (parts.drop 1).headD []
  decimalToE6Fields neg intPart fracRaw

/-- First stage of decimalToE6: trim, reject an empty result, record and
strip a single leading minus sign. -/
def decimalToE6OfChars (l : List Char) : Option Int :=
  let s := trimChars l
  if s.isEmpty then none
  else
    let neg := s.headD ' ' == '-'
    let t := if neg then s.tail else s
    decimalToE6Parts neg t

/-- decimalToE6 of executor.multi.js on a string input (the numeric input
path goes through String(value) first and is not separately modelled). -/
def decimalToE6 (value : String) : Option Int :=
  decimalToE6OfChars value.data

/-- Decimal digits are not whitespace. -/
theorem digit_not_whitespace {c : Char} (h : c.isDigit = true) : c.isWhitespace = false := by
  by_contra hw
  have hw2 : c.isWhitespace = true := by
    cases hcw : c.isWhitespace
    · exact absurd hcw hw
    · rfl
  simp only [Char.isWhitespace, Bool.or_eq_true, decide_eq_true_eq] at hw2
  rcases hw2 with ((h1 | h1) | h1) | h1 <;> subst h1 <;> exact absurd h (by decide)

/-- A decimal digit has value at most 9. -/
theorem digit_val_le_nine {c : Char} (h : c.isDigit = true) : c.toNat - 48 ≤ 9 := by
  simp [Char.isDigit] at h
  have h2 : c.val.toNat ≤ 57 := UInt32.toNat_le_of_le (by norm_num) h.2
  simp only [Char.toNat]
  omega

/-- Decimal digits differ from any fixed non-digit character. -/
theorem digit_bne {c d : Char} (h : c.isDigit = true) (hd : d.isDigit = false) :
    (c == d) = false := by
  by_cases hc : c = d
  · subst hc
    rw [h] at hd
    exact absurd hd (by decide)
  · simp [hc]

/-- dropWhile is the identity when no element satisfies the predicate. -/
theorem dropWhile_eq_self_of (p : Char → Bool) (l : List Char)
    (h : ∀ c ∈ l, p c = false) : l.dropWhile p = l := by
  cases l with
  | nil => rfl
  | cons c rest => simp [List.dropWhile, h c (List.mem_cons_self c rest)]

/-- trim is the identity on whitespace-free strings. -/
theorem trimChars_eq_self (l : List Char) (h : ∀ c ∈ l, c.isWhitespace = false) :
    trimChars l = l := by
  unfold trimChars
  rw [dropWhile_eq_self_of _ l h]
  rw [dropWhile_eq_self_of _ l.reverse (fun c hc => h c (List.mem_reverse.mp hc))]
  exact List.reverse_reverse l

/-- A leading zero digit does not change the value of a digit string. -/
theorem digitsVal_cons_zero (l : List Char) : digitsVal (('0') :: l) = digitsVal l := rfl

/-- Appending one digit multiplies the value by ten and adds the digit. -/
theorem digitsVal_append_singleton (l : List Char) (c : Char) :
    digitsVal (l ++ [c]) = digitsVal l * 10 + (c.toNat - 48) := by
  unfold digitsVal
  rw [List.foldl_append]
  rfl

/-- Appending a run of zero digits multiplies the value by the matching
power of ten. -/
theorem digitsVal_append_zeros (l : List Char) (k : Nat) :
    digitsVal (l ++ List.replicate k ('0')) = digitsVal l * 10 ^ k := by
  induction k with
  | zero => simp
  | succ k ih =>
    rw [List.replicate_succ', ← List.append_assoc, digitsVal_append_singleton, ih]
    have h0 : ('0' : Char).toNat - 48 = 0 := rfl
    rw [h0]
    ring

/-- Stripping the leading-zero run preserves the value of a digit string. -/
theorem stripLeadingZeros_val (l : List Char) :
    digitsVal (stripLeadingZeros l) = digitsVal l := by
  induction l with
  | nil => rfl
  | cons c rest ih =>
    cases rest with
    | nil => rfl
    | cons c2 rest2 =>
      unfold stripLeadingZeros
      split
      · next hcond =>
        have hc0 : c = '0' := by
          have := (Bool.and_eq_true _ _).mp hcond
          simpa using this.1
        subst hc0
        rw [ih, digitsVal_cons_zero]
      · rfl

/-- Stripping the leading-zero run preserves digit-only strings. -/
theorem stripLeadingZeros_all_digits (l : List Char) (h : l.all Char.isDigit = true) :
    (stripLeadingZeros l).all Char.isDigit = true := by
  induction l with
  | nil => rfl
  | cons c rest ih =>
    cases rest with
    | nil => exact h
    | cons c2 rest2 =>
      unfold stripLeadingZeros
      split
      · exact ih (by simp at h ⊢; exact h.2)
      · exact h

/-- Stripping the leading-zero run keeps the string nonempty. -/
theorem stripLeadingZeros_ne_nil (l : List Char) (h : l ≠ []) :
    stripLeadingZeros l ≠ [] := by
  induction l with
  | nil => exact absurd rfl h
  | cons c rest ih =>
    cases rest with
    | nil => simp [stripLeadingZeros]
    | cons c2 rest2 =>
      unfold stripLeadingZeros
      split
      · exact ih (by simp)
      · simp

/-- parseBigInt on a nonempty all-digit string yields its decimal value. -/
theorem parseBigInt_digits (l : List Char) (hne : l ≠ []) (hd : l.all Char.isDigit = true) :
    parseBigInt l = some ((digitsVal l : Nat) : Int) := by
  unfold parseBigInt
  have htrim : trimChars l = l :=
    trimChars_eq_self l (fun c hc => digit_not_whitespace (by
      simpa using List.all_eq_true.mp hd c hc))
  rw [htrim]
  cases l with
  | nil => exact absurd rfl hne
  | cons c rest =>
    have hcd : c.isDigit = true := by
      simpa using (List.all_eq_true.mp hd c (List.mem_cons_self c rest))
    have hm : (c == '-') = false := digit_bne hcd (by decide)
    have hp : (c == '+') = false := digit_bne hcd (by decide)
    cases rest with
    | nil =>
      cases hc0 : (c == '0') <;> simp [hm, hp, hc0, parseDigitsNat, hd]
    | cons c2 rest2 =>
      have hcd2 : c2.isDigit = true := by
        simpa using (List.all_eq_true.mp hd c2
          (List.mem_cons_of_mem c (List.mem_cons_self c2 rest2)))
      have hx : (c2 == 'x') = false := digit_bne hcd2 (by decide)
      have hX : (c2 == 'X') = false := digit_bne hcd2 (by decide)
      have ho : (c2 == 'o') = false := digit_bne hcd2 (by decide)
      have hO : (c2 == 'O') = false := digit_bne hcd2 (by decide)
      have hb : (c2 == 'b') = false := digit_bne hcd2 (by decide)
      have hB : (c2 == 'B') = false := digit_bne hcd2 (by decide)
      cases hc0 : (c == '0') <;>
        simp [hm, hp, hc0, hx, hX, ho, hO, hb, hB, parseDigitsNat, hd]

/-- Unfolding equation of splitOnDot on a nonempty list. -/
theorem splitOnDot_cons (c : Char) (rest : List Char) :
    splitOnDot (c :: rest)
      = if c == '.' then [] :: splitOnDot rest
        else (c :: (splitOnDot rest).headD []) :: (splitOnDot rest).tail := by
  simp [splitOnDot]

/-- splitOnDot always returns at least one segment. -/
theorem splitOnDot_ne_nil (l : List Char) : splitOnDot l ≠ [] := by
  cases l with
  | nil => simp [splitOnDot]
  | cons c rest =>
    rw [splitOnDot_cons]
    split <;> simp

/-- splitOnDot of a dot-free string is that string alone. -/
theorem splitOnDot_no_dot (l : List Char) (h : ∀ c ∈ l, (c == '.') = false) :
    splitOnDot l = [l] := by
  induction l with
  | nil => rfl
  | cons c rest ih =>
    rw [splitOnDot_cons, ih (fun d hd => h d (List.mem_cons_of_mem c hd))]
    simp [h c (List.mem_cons_self c rest)]

/-- splitOnDot around the first dot: a dot-free prefix becomes the first
segment and the suffix is split recursively. -/
theorem splitOnDot_append_dot (I F : List Char) (hI : ∀ c ∈ I, (c == '.') = false) :
    splitOnDot (I ++ ('.') :: F) = I :: splitOnDot F := by
  induction I with
  | nil =>
    rw [List.nil_append, splitOnDot_cons]
    simp
  | cons c I0 ih =>
    have hrec := ih (fun d hd => hI d (List.mem_cons_of_mem c hd))
    rw [List.cons_append, splitOnDot_cons, hrec]
    simp [hI c (List.mem_cons_self c I0)]

/-- A list of length seven splits into its first six elements and a last
element reachable by get?. -/
theorem length_seven_decomp (P : List Char) (h : P.length = 7) :
    ∃ c, P = P.take 6 ++ [c] ∧ P.get? 6 = some c := by
  have hdrop : (P.drop 6).length = 1 := by
    rw [List.length_drop, h]
  obtain ⟨c, hc⟩ : ∃ c, P.drop 6 = [c] := by
    cases hd : P.drop 6 with
    | nil => rw [hd] at hdrop; simp at hdrop
    | cons c rest =>
      rw [hd] at hdrop
      simp at hdrop
      exact ⟨c, by rw [hdrop]⟩
  refine ⟨c, ?_, ?_⟩
  · conv =>
      lhs
      rw [← List.take_append_drop 6 P]
    rw [hc]
  · rw [List.get?_eq_getElem?, show (6 : Nat) = 6 + 0 from rfl, ← List.getElem?_drop, hc]
    rfl

/-- Round-half-up arithmetic behind decimalToE6: combining the integer
value, the 6-digit fraction and the carry from the 7th digit equals the
half-up rounding of the scaled exact value. -/
theorem roundHalfUpDigits (vI v6 c7v vF d : Nat) (hc : c7v ≤ 9) (hd : d ≤ 7)
    (hP : v6 * 10 + c7v = vF * 10 ^ (7 - d)) :
    ((vI * 10 ^ d + vF) * 10 ^ (7 - d) + 5) / 10
      = vI * 1000000 + v6 + (if 5 ≤ c7v then 1 else 0) := by
  have h7 : (10 : Nat) ^ d * 10 ^ (7 - d) = 10 ^ 7 := by
    rw [← pow_add]
    congr 1
    omega
  have hExpand : (vI * 10 ^ d + vF) * 10 ^ (7 - d) = vI * 10 ^ 7 + (v6 * 10 + c7v) := by
    rw [add_mul, mul_assoc, h7, hP]
  rw [hExpand]
  have h10 : (10 : Nat) ^ 7 = 10000000 := by norm_num
  rw [h10]
  split <;> omega

/-- Taking the length of the left part plus i keeps the left part whole. -/
theorem take_append_full (l1 l2 : List Char) (i : Nat) :
    (l1 ++ l2).take (l1.length + i) = l1 ++ l2.take i := by
  rw [List.take_append_eq_append_take]
  simp

/-- Core characterization of decimalToE6Fields on digit fields: with at most
seven fractional digits the result is the sign applied to the half-up
rounding of the exact scaled value (integer value I, fraction value F over
10 to the d, scaled by one million). -/
theorem decimalToE6Fields_digits (neg : Bool) (I F : List Char)
    (hne : I ≠ []) (hI : I.all Char.isDigit = true) (hF : F.all Char.isDigit = true)
    (hd : F.length ≤ 7) :
    decimalToE6Fields neg I F
      = some ((if neg then (-1 : Int) else 1)
          * (((digitsVal I * 10 ^ F.length + digitsVal F) * 10 ^ (7 - F.length) + 5) / 10
              : Nat)) := by
  have hpad : (F ++ List.replicate 7 ('0')).take 7
      = F ++ List.replicate (7 - F.length) ('0') := by
    rw [List.take_append_eq_append_take, List.take_of_length_le hd, List.take_replicate]
    have hmin : min (7 - F.length) 7 = 7 - F.length := by omega
    rw [hmin]
  have hPlen : (F ++ List.replicate (7 - F.length) ('0')).length = 7 := by
    simp only [List.length_append, List.length_replicate]
    omega
  have hPall : (F ++ List.replicate (7 - F.length) ('0')).all Char.isDigit = true := by
    rw [List.all_eq_true]
    intro c hc
    rcases List.mem_append.mp hc with hm | hm
    · simpa using List.all_eq_true.mp hF c hm
    · have : c = '0' := List.eq_of_mem_replicate hm
      subst this
      decide
  obtain ⟨c7, hPdecomp, hPget⟩ :=
    length_seven_decomp (F ++ List.replicate (7 - F.length) ('0')) hPlen
  have hc7mem : c7 ∈ F ++ List.replicate (7 - F.length) ('0') := by
    rw [hPdecomp]
    exact List.mem_append.mpr (Or.inr (List.mem_singleton.mpr rfl))
  have hc7dig : c7.isDigit = true := by
    simpa using List.all_eq_true.mp hPall c7 hc7mem
  have hAall : ((F ++ List.replicate (7 - F.length) ('0')).take 6).all Char.isDigit
      = true := by
    rw [List.all_eq_true]
    intro c hc
    exact List.all_eq_true.mp hPall c ((List.take_subset _ _) hc)
  have hAlen : ((F ++ List.replicate (7 - F.length) ('0')).take 6).length = 6 := by
    rw [List.length_take, hPlen]
    omega
  have hAne : (F ++ List.replicate (7 - F.length) ('0')).take 6 ≠ [] := by
    intro hcon
    rw [hcon] at hAlen
    simp at hAlen
  have hAval : digitsVal (F ++ List.replicate (7 - F.length) ('0'))
      = digitsVal ((F ++ List.replicate (7 - F.length) ('0')).take 6) * 10
        + (c7.toNat - 48) := by
    conv =>
      lhs
      rw [hPdecomp]
    exact digitsVal_append_singleton _ c7
  have hPval : digitsVal (F ++ List.replicate (7 - F.length) ('0'))
      = digitsVal F * 10 ^ (7 - F.length) := digitsVal_append_zeros F _
  have hIe : I.isEmpty = false := by
    cases I with
    | nil => exact absurd rfl hne
    | cons c rest => rfl
  have hAe : ((F ++ List.replicate (7 - F.length) ('0')).take 6).isEmpty = false := by
    cases hA : (F ++ List.replicate (7 - F.length) ('0')).take 6 with
    | nil => exact absurd hA hAne
    | cons c rest => rfl
  have harith := roundHalfUpDigits (digitsVal I)
    (digitsVal ((F ++ List.replicate (7 - F.length) ('0')).take 6))
    (c7.toNat - 48) (digitsVal F) F.length (digit_val_le_nine hc7dig) hd
    (hAval.symm.trans hPval)
  simp only [decimalToE6Fields]
  rw [hpad, hIe, hAe]
  simp only [Bool.false_eq_true, if_false]
  rw [parseBigInt_digits I hne hI,
    parseBigInt_digits _ hAne hAall,
    hPget]
  simp only [hc7dig, Bool.true_and]
  rw [harith]
  by_cases hb : 5 ≤ c7.toNat - 48
  · cases neg <;> simp [hb] <;> push_cast <;> ring
  · cases neg <;> simp [hb] <;> push_cast <;> ring

/-- On an input of shape digits, dot, digits, the middle stage selects the
stripped integer field and the fractional field. -/
theorem decimalToE6Parts_digits (neg : Bool) (I F : List Char)
    (hne : I ≠ []) (hI : I.all Char.isDigit = true) (hF : F.all Char.isDigit = true) :
    decimalToE6Parts neg (I ++ ('.') :: F)
      = decimalToE6Fields neg (stripLeadingZeros I) F := by
  have hIdot : ∀ c ∈ I, (c == '.') = false := fun c hc =>
    digit_bne (by simpa using List.all_eq_true.mp hI c hc) (by decide)
  have hFdot : ∀ c ∈ F, (c == '.') = false := fun c hc =>
    digit_bne (by simpa using List.all_eq_true.mp hF c hc) (by decide)
  have hIe : I.isEmpty = false := by
    cases I with
    | nil => exact absurd rfl hne
    | cons c rest => rfl
  simp only [decimalToE6Parts]
  rw [splitOnDot_append_dot I F hIdot, splitOnDot_no_dot F hFdot]
  simp [hIe]

/-- First-stage reduction: on a whitespace-free body whose first character
is not a minus sign, an optional prepended minus sign is detected, stripped
and handed to the middle stage. -/
theorem decimalToE6OfChars_signed (neg : Bool) (body : List Char)
    (hws : ∀ c ∈ body, c.isWhitespace = false)
    (hhead : ∀ c, body.head? = some c → (c == '-') = false)
    (hbody : body ≠ []) :
    decimalToE6OfChars ((if neg then [('-')] else []) ++ body)
      = decimalToE6Parts neg body := by
  cases neg with
  | true =>
    have hws2 : ∀ c ∈ ('-') :: body, c.isWhitespace = false := by
      intro c hc
      rcases List.mem_cons.mp hc with h | h
      · subst h; decide
      · exact hws c h
    show decimalToE6OfChars (('-') :: body) = decimalToE6Parts true body
    simp only [decimalToE6OfChars]
    rw [trimChars_eq_self (('-') :: body) hws2]
    simp
  | false =>
    cases body with
    | nil => exact absurd rfl hbody
    | cons c0 rest =>
      have hc0 : (c0 == '-') = false := hhead c0 rfl
      show decimalToE6OfChars (c0 :: rest) = decimalToE6Parts false (c0 :: rest)
      simp only [decimalToE6OfChars]
      rw [trimChars_eq_self (c0 :: rest) hws]
      simp [hc0]

/-- Decimal string assembled from a sign flag and two digit fields, as fed
to decimalToE6. -/
def mkDecimalString (neg : Bool) (I F : List Char) : String :=
  ⟨(if neg then [('-')] else []) ++ (I ++ ('.') :: F)⟩

/-- C7 (amended): on an optional minus sign followed by a nonempty integer
digit field, a decimal point and a fractional digit field of at most seven
digits, decimalToE6 returns the half-up rounding of the scaled exact value
with the sign applied last; in particular -0.0000005 rounds away from zero
to -1. Empty and whitespace-only strings yield none, and a field the
BigInt string syntax rejects, such as abc, fails; but not every non-numeric
input fails: segments after a second decimal point are dropped (1.2.3
yields 1.2 in E6) and a BigInt prefix-form field is accepted (0x1A yields
26 in E6). -/
theorem C7_decimal_to_e6 (neg : Bool) (I F : List Char) (hne : I ≠ [])
    (hI : I.all Char.isDigit = true) (hF : F.all Char.isDigit = true) (hd : F.length ≤ 7) :
    (decimalToE6 (mkDecimalString neg I F)
      = some ((if neg then (-1 : Int) else 1)
          * (((digitsVal I * 10 ^ F.length + digitsVal F) * 10 ^ (7 - F.length) + 5) / 10
              : Nat)))
    ∧ decimalToE6 ("-0.0000005") = some (-1)
    ∧ decimalToE6 ("") = none
    ∧ decimalToE6 ("   ") = none
    ∧ decimalToE6 ("abc") = none
    ∧ decimalToE6 ("1.2.3") = some 1200000
    ∧ decimalToE6 ("0x1A") = some 26000000 := by
  refine ⟨?_, by decide, by decide, by decide, by decide, by decide, by decide⟩
  have hbody : I ++ ('.') :: F ≠ [] := by
    intro hcon
    have := congrArg List.length hcon
    simp at this
  have hws : ∀ c ∈ I ++ ('.') :: F, c.isWhitespace = false := by
    intro c hc
    rcases List.mem_append.mp hc with hm | hm
    · exact digit_not_whitespace (by simpa using List.all_eq_true.mp hI c hm)
    · rcases List.mem_cons.mp hm with hc2 | hm2
      · subst hc2; decide
      · exact digit_not_whitespace (by simpa using List.all_eq_true.mp hF c hm2)
  have hhead : ∀ c, (I ++ ('.') :: F).head? = some c → (c == '-') = false := by
    intro c hc
    cases I with
    | nil => exact absurd rfl hne
    | cons c0 I0 =>
      have : c0 = c := by simpa using hc
      subst this
      exact digit_bne
        (by simpa using List.all_eq_true.mp hI c0 (List.mem_cons_self c0 I0)) (by decide)
  have h1 : decimalToE6 (mkDecimalString neg I F)
      = decimalToE6OfChars ((if neg then [('-')] else []) ++ (I ++ ('.') :: F)) := rfl
  rw [h1, decimalToE6OfChars_signed neg _ hws hhead hbody,
    decimalToE6Parts_digits neg I F hne hI hF,
    decimalToE6Fields_digits neg (stripLeadingZeros I) F
      (stripLeadingZeros_ne_nil I hne) (stripLeadingZeros_all_digits I hI) hF hd,
    stripLeadingZeros_val I]

/-- Witness for C7: the assembled string -7.5 converts to -7500000 E6. -/
theorem C7_decimal_to_e6_witness : decimalToE6 ("-7.5") = some (-7500000) := by
  have h := (C7_decimal_to_e6 true (['7']) (['5'])
    (by decide) (by decide) (by decide) (by decide)).1
  rw [show mkDecimalString true (['7']) (['5']) = ("-7.5" : String) from by decide] at h
  rw [h]
  decide

/-- Spec-side reading of a numeric decimal string, used only to state the
counterexample: an optional minus sign, then digit fields with at most one
decimal point and at least one digit. -/
def specNumericString (s : String) : Bool :=
  let core := if s.data.headD ' ' == '-' then s.data.tail else s.data
  match splitOnDot core with
  | [ip] => !ip.isEmpty && ip.all Char.isDigit
  | [ip, fp] => (!ip.isEmpty || !fp.isEmpty) && ip.all Char.isDigit && fp.all Char.isDigit
  | _ => false

/-- C7 counterexample: neither 1.2.3 nor 0x1A is a numeric decimal string,
yet decimalToE6 fails on neither: the third point-separated segment is
dropped (1.2.3 returns 1200000, i.e. 1.2) and the hexadecimal field is
accepted by the BigInt conversion (0x1A returns 26000000, i.e. 26). -/
theorem C7_nonnumeric_counterexample :
    specNumericString ("1.2.3") = false ∧ decimalToE6 ("1.2.3") = some 1200000
    ∧ specNumericString ("0x1A") = false ∧ decimalToE6 ("0x1A") = some 26000000 := by
  exact ⟨by decide, by decide, by decide, by decide⟩

/-- makeKey of proofClient.js: the request key is the numerically sorted,
comma-joined list of asset indices. Sorting a copy of the input is modelled
by an insertion sort under the ascending order; duplicates are kept, as the
JS sort keeps them. -/
def makeKey (pairs : List Nat) : String :=
  String.intercalate (",") ((List.insertionSort (fun a b => a ≤ b) pairs).map toString)

/-- Proof cache of proofClient.js: key mapped to proof bytes and fetch
time, newest binding first. -/
def ProofCache : Type := List (String × String × Nat)

instance : DecidableEq ProofCache := by
  unfold ProofCache; infer_instance

/-- cache.get(key). -/
def proofCacheLookup (cache : ProofCache) (key : String) : Option (String × Nat) :=
  (cache.find? (fun e => e.1 == key)).map (fun e => e.2)

/-- normalizeProof of proofClient.js: ensure the canonical 0x prefix. -/
def normalizeProof (p : String) : String :=
  if p.startsWith ("0x") then p else ("0x") ++ p

/-- Result of one fetchProof call: the returned proof bytes, whether the
network client was invoked, and the cache afterwards. -/
structure FetchResult where
  proof : String
  usedNetwork : Bool
  cache : ProofCache
deriving DecidableEq

/-- fetchProof of proofClient.js: on a cache hit younger than 1000 ms return
the cached proof without a network call; otherwise call the client
(modelled by the proof bytes `networkProof` it would return), normalize and
cache the result. -/
def fetchProofStep (cache : ProofCache) (now : Nat) (pairs : List Nat)
    (networkProof : String) : FetchResult :=
  let key := makeKey pairs
  match proofCacheLookup cache key with
  | some hit =>
    if now - hit.2 < 1000 then { proof := hit.1, usedNetwork := false, cache := cache }
    else
      { proof := normalizeProof networkProof, usedNetwork := true,
        cache := (key, normalizeProof networkProof, now) :: cache }
  | none =>
    { proof := normalizeProof networkProof, usedNetwork := true,
      cache := (key, normalizeProof networkProof, now) :: cache }

/-- C8 counterexample: the index lists [1, 1] and [1] are equal as sets, yet
makeKey does not deduplicate and produces different keys, so equal index
sets do not share a cache entry. -/
theorem C8_makeKey_counterexample :
    ([1, 1] : List Nat).toFinset = ([1] : List Nat).toFinset
    ∧ makeKey [1, 1] ≠ makeKey [1] := by
  refine ⟨by decide, ?_⟩
  intro h
  have : ("1,1" : String) = "1" := h
  exact absurd this (by decide)

/-- C8 (amended): the cache key is the sorted, comma-joined index list with
multiplicities kept, so any two requests whose index lists are permutations
of each other compute the same key, and within the 1-second TTL the second
such request returns the first request's cached proof without a network
call. -/
theorem C8_proof_cache (xs ys : List Nat) (h : xs.Perm ys) (cache : ProofCache)
    (t0 t1 : Nat) (p q : String)
    (hmiss : proofCacheLookup cache (makeKey xs) = none)
    (hwin : t1 - t0 < 1000) :
    makeKey xs = makeKey ys
    ∧ (fetchProofStep cache t0 xs p).usedNetwork = true
    ∧ (fetchProofStep (fetchProofStep cache t0 xs p).cache t1 ys q).proof
        = (fetchProofStep cache t0 xs p).proof
    ∧ (fetchProofStep (fetchProofStep cache t0 xs p).cache t1 ys q).usedNetwork = false
    ∧ (fetchProofStep (fetchProofStep cache t0 xs p).cache t1 ys q).cache
        = (fetchProofStep cache t0 xs p).cache := by
  have hkey : makeKey xs = makeKey ys := by
    unfold makeKey
    congr 1
    congr 1
    exact List.eq_of_perm_of_sorted
      ((List.perm_insertionSort _ xs).trans (h.trans (List.perm_insertionSort _ ys).symm))
      (List.sorted_insertionSort _ xs) (List.sorted_insertionSort _ ys)
  have hfirst : fetchProofStep cache t0 xs p
      = { proof := normalizeProof p, usedNetwork := true,
          cache := (makeKey xs, normalizeProof p, t0) :: cache } := by
    simp only [fetchProofStep]
    rw [hmiss]
  have hlook : proofCacheLookup ((makeKey xs, normalizeProof p, t0) :: cache) (makeKey ys)
      = some (normalizeProof p, t0) := by
    unfold proofCacheLookup
    rw [← hkey]
    simp [List.find?]
  have hsecond : fetchProofStep ((makeKey xs, normalizeProof p, t0) :: cache) t1 ys q
      = { proof := normalizeProof p, usedNetwork := false,
          cache := (makeKey xs, normalizeProof p, t0) :: cache } := by
    simp only [fetchProofStep]
    rw [hlook]
    simp [hwin]
  refine ⟨hkey, by rw [hfirst], ?_, ?_, ?_⟩ <;> rw [hfirst, hsecond]

/-- Witness for C8: the permuted index lists [2, 1] and [1, 2] share a key;
after a first fetch at time 0, a second request at time 500 is served from
the cache without a network call. -/
theorem C8_proof_cache_witness :
    makeKey [2, 1] = makeKey [1, 2]
    ∧ (fetchProofStep [] 0 [2, 1] ("ab")).usedNetwork = true
    ∧ (fetchProofStep (fetchProofStep [] 0 [2, 1] ("ab")).cache 500 [1, 2] ("cd")).proof
        = (fetchProofStep [] 0 [2, 1] ("ab")).proof
    ∧ (fetchProofStep (fetchProofStep [] 0 [2, 1] ("ab")).cache 500 [1, 2]
        ("cd")).usedNetwork = false
    ∧ (fetchProofStep (fetchProofStep [] 0 [2, 1] ("ab")).cache 500 [1, 2] ("cd")).cache
        = (fetchProofStep [] 0 [2, 1] ("ab")).cache :=
  C8_proof_cache [2, 1] [1, 2] (by decide) [] 0 500 ("ab") ("cd") (by decide) (by decide)

/-- normalizeAddress of write.routes.js: trim, then lowercase. -/
def normalizeAddress (addr : String) : String :=
  addr.trim.toLower

/-- Body of PUT /trade/:id after the per-field toInt / toBoolInt / String
coercions; absent (or null) optional fields are none. -/
structure PutBody where
  trader : String
  assetId : Int
  isLong : Bool
  isLimit : Bool
  leverage : Option Int
  openPrice : Option Int
  state : Int
  openTimestamp : Option Int
  fundingIndex : Option String
  closePrice : Option Int
  lotSize : Option Int
  closedLotSize : Option Int
  stopLoss : Option Int
  takeProfit : Option Int
  lpLockedCapital : Option String
  marginUsdc : Option String
deriving Repr, DecidableEq

/-- Payload assembled by PUT /trade/:id: defaults of 0 for closePrice,
closedLotSize, stopLoss, takeProfit when absent. -/
def putPayload (id : Int) (b : PutBody) : Trade where
  id := id
  trader := normalizeAddress b.trader
  assetId := b.assetId
  isLong := b.isLong
  isLimit := b.isLimit
  leverage := b.leverage
  openPrice := b.openPrice
  state := b.state
  openTimestamp := b.openTimestamp
  fundingIndex := b.fundingIndex
  closePrice := some (b.closePrice.getD 0)
  lotSize := b.lotSize
  closedLotSize := b.closedLotSize.getD 0
  stopLoss := b.stopLoss.getD 0
  takeProfit := b.takeProfit.getD 0
  lpLockedCapital := b.lpLockedCapital
  marginUsdc := b.marginUsdc

/-- SQL upsert of stmt.upsertTrade: replace the row with the same id, or
append the new row. -/
def upsertTrade (store : List Trade) (t : Trade) : List Trade :=
  if store.any (fun u => u.id == t.id)
  then store.map (fun u => if u.id == t.id then t else u)
  else store ++ [t]

/-- PUT /trade/:id of write.routes.js: trader validation, then the
closed-requires-closePrice check, then the upsert. The error component is
the 4xx body message; on error the store is untouched. -/
def putTrade (store : List Trade) (id : Int) (b : PutBody) :
    Option String × List Trade :=
  let payload := putPayload id b
  if !(payload.trader.startsWith ("0x")) || payload.trader.length < 10 then
    (some ("Invalid trader address"), store)
  else if payload.state == 2 && (payload.closePrice.getD 0) == 0 then
    (some ("state=2 requires closePrice != 0"), store)
  else (none, upsertTrade store payload)

/-- Body of PATCH /trade/:id after coercions; none encodes an absent or
null field. -/
structure PatchBody where
  state : Option Int
  closePrice : Option Int
  stopLoss : Option Int
  takeProfit : Option Int
  closedLotSize : Option Int
  marginUsdc : Option String
  lpLockedCapital : Option String
  fundingIndex : Option String
deriving Repr, DecidableEq

/-- SQL COALESCE of a patch value with a stored nullable column. -/
def coalesceO {α : Type} (p old : Option α) : Option α :=
  match p with
  | some v => some v
  | none => old

/-- stmt.patchTrade applied to one row: each COALESCE keeps the stored
value when the patch field is null. Rows with another id are unchanged. -/
def applyPatchRow (p : PatchBody) (id : Int) (t : Trade) : Trade :=
  if t.id == id then
    { t with
      state := p.state.getD t.state
      closePrice := coalesceO p.closePrice t.closePrice
      stopLoss := p.stopLoss.getD t.stopLoss
      takeProfit := p.takeProfit.getD t.takeProfit
      closedLotSize := p.closedLotSize.getD t.closedLotSize
      marginUsdc := coalesceO p.marginUsdc t.marginUsdc
      lpLockedCapital := coalesceO p.lpLockedCapital t.lpLockedCapital
      fundingIndex := coalesceO p.fundingIndex t.fundingIndex }
  else t

/-- UPDATE of stmt.patchTrade over the whole table. -/
def patchTradeStore (store : List Trade) (id : Int) (p : PatchBody) : List Trade :=
  store.map (applyPatchRow p id)

/-- stmt.getTradeById. -/
def getTradeById (store : List Trade) (id : Int) : Option Trade :=
  store.find? (fun t => t.id == id)

/-- PATCH /trade/:id of write.routes.js: 404 when the trade is missing; when
the patch closes the trade, the effective closePrice (patched value if
supplied, else stored) must be nonzero, and an absent closedLotSize is
auto-filled from the stored lotSize; then the COALESCE patch is applied. -/
def patchTradeRoute (store : List Trade) (id : Int) (b : PatchBody) :
    Option String × List Trade :=
  match getTradeById store id with
  | none => (some ("Trade not found"), store)
  | some existing =>
    if b.state == some 2 then
      if (coalesceO b.closePrice existing.closePrice).getD 0 == 0 then
        (some ("state=2 requires closePrice != 0"), store)
      else
        let patch2 := if b.closedLotSize == none
          then { b with closedLotSize := existing.lotSize } else b
        (none, patchTradeStore store id patch2)
    else (none, patchTradeStore store id b)

/-- Patching preserves row ids. -/
theorem applyPatchRow_id (p : PatchBody) (id : Int) (t : Trade) :
    (applyPatchRow p id t).id = t.id := by
  unfold applyPatchRow
  split <;> rfl

/-- Reading a row after the table-wide patch returns the patched row. -/
theorem getTradeById_patch (store : List Trade) (id : Int) (p : PatchBody) :
    getTradeById (patchTradeStore store id p) id
      = (getTradeById store id).map (applyPatchRow p id) := by
  unfold getTradeById patchTradeStore
  have hp : ((fun t : Trade => t.id == id) ∘ applyPatchRow p id)
      = (fun t : Trade => t.id == id) := by
    funext t
    show ((applyPatchRow p id t).id == id) = (t.id == id)
    rw [applyPatchRow_id]
  rw [List.find?_map, hp]

/-- Stored open trade with a nonzero stored closePrice, used by the C9
counterexample and witness. -/
def c9StoredTrade : Trade where
  id := 1
  trader := "0xabcdef0123"
  assetId := 0
  isLong := true
  isLimit := false
  leverage := none
  openPrice := some 70000000000
  state := 1
  openTimestamp := none
  fundingIndex := none
  closePrice := some 5
  lotSize := some 10
  closedLotSize := 0
  stopLoss := 0
  takeProfit := 0
  lpLockedCapital := none
  marginUsdc := none

/-- Closing patch that supplies an explicit zero closePrice. -/
def c9ZeroClosePatch : PatchBody where
  state := some 2
  closePrice := some 0
  stopLoss := none
  takeProfit := none
  closedLotSize := none
  marginUsdc := none
  lpLockedCapital := none
  fundingIndex := none

/-- C9 counterexample: the stored trade has a nonzero closePrice (5), so the
claim - rejected unless a nonzero closePrice is supplied in the patch or
already stored - says this closing patch is accepted; the code rejects it
because the patch itself carries closePrice 0. -/
theorem C9_patch_counterexample :
    (getTradeById [c9StoredTrade] 1).map Trade.closePrice = some (some 5)
    ∧ c9ZeroClosePatch.state = some 2
    ∧ (patchTradeRoute [c9StoredTrade] 1 c9ZeroClosePatch).1
        = some ("state=2 requires closePrice != 0")
    ∧ (patchTradeRoute [c9StoredTrade] 1 c9ZeroClosePatch).2 = [c9StoredTrade] := by
  exact ⟨by decide, rfl, by decide, by decide⟩

/-- C9 (amended): a PUT with state 2 and closePrice absent or zero is
rejected and leaves the store unchanged; a PATCH with state 2 is rejected
(store unchanged) exactly when the effective closePrice - the patched value
when supplied, otherwise the stored one - is missing or zero, and accepted
otherwise; an accepted closing PATCH that omits closedLotSize auto-fills it
from the stored lotSize. -/
theorem C9_write_close_constraints :
    (∀ (store : List Trade) (id : Int) (b : PutBody),
      b.state = 2 → (b.closePrice = none ∨ b.closePrice = some 0) →
      (putTrade store id b).1.isSome = true ∧ (putTrade store id b).2 = store)
    ∧ (∀ (store : List Trade) (id : Int) (b : PatchBody) (existing : Trade),
      getTradeById store id = some existing → b.state = some 2 →
      (((coalesceO b.closePrice existing.closePrice).getD 0 = 0 →
        (patchTradeRoute store id b).1.isSome = true
          ∧ (patchTradeRoute store id b).2 = store)
      ∧ ((coalesceO b.closePrice existing.closePrice).getD 0 ≠ 0 →
        (patchTradeRoute store id b).1 = none)))
    ∧ (∀ (store : List Trade) (id : Int) (b : PatchBody) (existing : Trade) (lv : Int),
      getTradeById store id = some existing → b.state = some 2 → b.closedLotSize = none →
      existing.lotSize = some lv →
      (coalesceO b.closePrice existing.closePrice).getD 0 ≠ 0 →
      (getTradeById ((patchTradeRoute store id b).2) id).map Trade.closedLotSize
        = some lv) := by
  refine ⟨?_, ?_, ?_⟩
  · intro store id b hstate hclose
    unfold putTrade
    by_cases htr : (!((putPayload id b).trader.startsWith ("0x"))
        || (putPayload id b).trader.length < 10) = true
    · simp only [htr, if_true]
      exact ⟨rfl, trivial⟩
    · simp only [Bool.not_eq_true] at htr
      simp only [htr, Bool.false_eq_true, if_false]
      have hcond : ((putPayload id b).state == 2
          && ((putPayload id b).closePrice.getD 0) == 0) = true := by
        have h1 : (putPayload id b).state = 2 := hstate
        have h2 : (putPayload id b).closePrice.getD 0 = 0 := by
          show (some (b.closePrice.getD 0)).getD 0 = 0
          rcases hclose with h | h <;> rw [h] <;> rfl
        rw [h1, h2]
        rfl
      simp only [hcond, if_true]
      exact ⟨rfl, trivial⟩
  · intro store id b existing hget hstate
    unfold patchTradeRoute
    rw [hget, hstate]
    constructor
    · intro hz
      have hcond : ((coalesceO b.closePrice existing.closePrice).getD 0 == 0) = true := by
        rw [hz]; rfl
      simp only [hcond]
      simp
    · intro hnz
      have hcond : ((coalesceO b.closePrice existing.closePrice).getD 0 == 0) = false := by
        simpa using hnz
      simp only [hcond]
      simp
  · intro store id b existing lv hget hstate hcls hlot hnz
    have hcond : ((coalesceO b.closePrice existing.closePrice).getD 0 == 0) = false := by
      simpa using hnz
    have hroute : (patchTradeRoute store id b).2
        = patchTradeStore store id { b with closedLotSize := existing.lotSize } := by
      unfold patchTradeRoute
      rw [hget, hstate, hcls]
      simp only [hcond]
      simp
    rw [hroute, getTradeById_patch, hget]
    have hfind : store.find? (fun t => t.id == id) = some existing := hget
    have hid : (existing.id == id) = true := by
      have h2 := List.find?_some hfind
      simpa using h2
    show some ((applyPatchRow { b with closedLotSize := existing.lotSize } id
        existing).closedLotSize) = some lv
    unfold applyPatchRow
    rw [hid]
    simp only [if_true]
    show some ((existing.lotSize).getD existing.closedLotSize) = some lv
    rw [hlot]
    rfl

/-- Accepting closing patch (nonzero closePrice, closedLotSize omitted)
used by the C9 witness. -/
def c9ClosePatch : PatchBody where
  state := some 2
  closePrice := some 7
  stopLoss := none
  takeProfit := none
  closedLotSize := none
  marginUsdc := none
  lpLockedCapital := none
  fundingIndex := none

/-- PUT body closing a trade without a closePrice, used by the C9 witness. -/
def c9PutBody : PutBody where
  trader := "0xabcdef0123"
  assetId := 0
  isLong := true
  isLimit := false
  leverage := none
  openPrice := some 1
  state := 2
  openTimestamp := none
  fundingIndex := none
  closePrice := none
  lotSize := some 1
  closedLotSize := none
  stopLoss := none
  takeProfit := none
  lpLockedCapital := none
  marginUsdc := none

/-- Witness for C9: the closing PUT without closePrice is rejected leaving
the store unchanged; the closing PATCH with closePrice 7 is accepted and
auto-fills closedLotSize from the stored lotSize 10. -/
theorem C9_write_close_constraints_witness :
    ((putTrade [] 4 c9PutBody).1.isSome = true ∧ (putTrade [] 4 c9PutBody).2 = [])
    ∧ (patchTradeRoute [c9StoredTrade] 1 c9ClosePatch).1 = none
    ∧ (getTradeById ((patchTradeRoute [c9StoredTrade] 1 c9ClosePatch).2) 1).map
        Trade.closedLotSize = some 10 :=
  ⟨C9_write_close_constraints.1 [] 4 c9PutBody rfl (Or.inl rfl),
   (C9_write_close_constraints.2.1 [c9StoredTrade] 1 c9ClosePatch c9StoredTrade
      (by decide) rfl).2 (by decide),
   C9_write_close_constraints.2.2 [c9StoredTrade] 1 c9ClosePatch c9StoredTrade 10
      (by decide) rfl rfl rfl (by decide)⟩

end OrderbookV7
